import Mathlib

/-!
Verification of the ucl-solkoff ranking/analysis engine.

This file gives a shallow embedding, in Lean 4, of the engine modules of the
repository (backend/solkoff_calculator.py and backend/playoff_analyzer.py)
and proves or refutes the frozen claims about them.

Modelling conventions:
  * SQL rows become Lean structures; nullable columns become Option.
  * Python floats become rationals; Python's round(x, 3) becomes round3
    (round half to even, as Python's round does).
  * SQL SELECT ... WHERE becomes List.filter over the table lists; SQL
    three-valued logic is collapsed to "the condition evaluates to TRUE"
    (a NULL comparison result does not satisfy a WHERE clause).
  * Python sets become Finsets; dict-based accumulation becomes per-team
    folds over the same match list (one fold per team, same updates).
  * The standings and solkoff_coefficients tables carry their PRIMARY KEY
    uniqueness (at most one row per team_id) as structure invariants.
-/

namespace UclSolkoff

/-! ## Rounding: Python's round(x, 3) on rationals (round half to even) -/

/-- Round a rational to the nearest integer, ties to the even integer,
exactly as Python's builtin round does. -/
def rhe (q : ℚ) : ℤ :=
  let n : ℤ := ⌊q⌋
  if q - n < 1/2 then n
  else if 1/2 < q - n then n + 1
  else if n % 2 = 0 then n else n + 1

/-- Model of Python's round(x, 3). -/
def round3 (q : ℚ) : ℚ := (rhe (1000 * q) : ℚ) / 1000

theorem rhe_int_add (n : ℤ) (f : ℚ) (h0 : 0 ≤ f) (h1 : f < 1) :
    rhe ((n : ℚ) + f) =
      if f < 1/2 then n else if 1/2 < f then n + 1
      else if n % 2 = 0 then n else n + 1 := by
  have hfl : ⌊(n : ℚ) + f⌋ = n := by
    rw [add_comm, Int.floor_add_int, Int.floor_eq_zero_iff.mpr ⟨h0, h1⟩, zero_add]
  unfold rhe
  simp only [hfl]
  have hsub : (n : ℚ) + f - (n : ℤ) = f := by ring
  rw [hsub]

theorem rhe_compl (x : ℚ) (N : ℤ) (hN : N % 2 = 0) :
    rhe x + rhe ((N : ℚ) - x) = N := by
  set n : ℤ := ⌊x⌋ with hn
  have h0 : 0 ≤ x - n := by
    have := Int.floor_le x
    linarith
  have h1 : x - n < 1 := by
    have := Int.lt_floor_add_one x
    linarith
  set f : ℚ := x - n with hf
  have hx : x = (n : ℚ) + f := by rw [hf]; ring
  by_cases hf0 : f = 0
  · have hx' : x = (n : ℚ) + 0 := by rw [hx, hf0]
    have hNx : (N : ℚ) - x = ((N - n : ℤ) : ℚ) + 0 := by
      rw [hx, hf0]; push_cast; ring
    rw [hNx, hx', rhe_int_add n 0 le_rfl one_pos, rhe_int_add (N - n) 0 le_rfl one_pos]
    norm_num
  · have hfpos : 0 < f := lt_of_le_of_ne h0 (Ne.symm hf0)
    have hNx : (N : ℚ) - x = ((N - n - 1 : ℤ) : ℚ) + (1 - f) := by
      rw [hx]; push_cast; ring
    have h0' : 0 ≤ 1 - f := by linarith
    have h1' : 1 - f < 1 := by linarith
    rw [hNx, hx, rhe_int_add n f h0 h1, rhe_int_add (N - n - 1) (1 - f) h0' h1']
    rcases lt_trichotomy f (1/2) with hlt | heq | hgt
    · have : ¬ (1 - f < 1/2) := by linarith
      have h2 : 1/2 < 1 - f := by linarith
      simp only [if_pos hlt, if_neg this, if_pos h2]
      ring
    · have c1 : ¬ (f < 1/2) := by rw [heq]; exact lt_irrefl _
      have c2 : ¬ (1/2 < f) := by rw [heq]; exact lt_irrefl _
      have c3 : ¬ (1 - f < 1/2) := by rw [heq]; norm_num
      have c4 : ¬ (1/2 < 1 - f) := by rw [heq]; norm_num
      simp only [if_neg c1, if_neg c2, if_neg c3, if_neg c4]
      rcases Int.even_or_odd n with ⟨k, hk⟩ | ⟨k, hk⟩
      · have e1 : n % 2 = 0 := by omega
        have e2 : ¬ ((N - n - 1) % 2 = 0) := by omega
        simp only [if_pos e1, if_neg e2]
        ring
      · have e1 : ¬ (n % 2 = 0) := by omega
        have e2 : (N - n - 1) % 2 = 0 := by omega
        simp only [if_neg e1, if_pos e2]
        ring
    · have c1 : ¬ (f < 1/2) := by linarith
      have h2 : 1 - f < 1/2 := by linarith
      simp only [if_neg c1, if_pos hgt, if_pos h2]
      ring

theorem round3_compl (p : ℚ) : round3 p + round3 (1 - p) = 1 := by
  unfold round3
  have h : 1000 * (1 - p) = ((1000 : ℤ) : ℚ) - 1000 * p := by push_cast; ring
  rw [h]
  have := rhe_compl (1000 * p) 1000 (by norm_num)
  have hcast : ((rhe (1000 * p) : ℚ) + (rhe (((1000 : ℤ) : ℚ) - 1000 * p) : ℚ)) = 1000 := by
    exact_mod_cast congrArg (fun z : ℤ => (z : ℚ)) this
  rw [div_add_div_same, hcast]
  norm_num

/-! ## Data model: the relational store read by the engine -/

/-- Row of the teams table (id PRIMARY KEY, name NOT NULL, crest nullable). -/
structure TeamRow where
  id : ℤ
  name : String
  crest : Option String
  deriving DecidableEq

/-- Row of the matches table.  Nullable columns are Options. -/
structure MatchRow where
  id : ℤ
  home_team_id : ℤ
  away_team_id : ℤ
  home_score : Option ℤ
  away_score : Option ℤ
  matchday : Option ℤ
  date : Option String
  status : Option String
  stage : Option String
  round : Option String
  group_name : Option String
  deriving DecidableEq

/-- Row of the standings table (team_id PRIMARY KEY). -/
structure StandingRow where
  team_id : ℤ
  played : Option ℤ
  points : Option ℤ
  deriving DecidableEq

/-- Row of the solkoff_coefficients table (team_id PRIMARY KEY, value NOT NULL). -/
structure SolkoffRow where
  team_id : ℤ
  solkoff_value : ℚ
  deriving DecidableEq

/-- The database as read by the engine.  List order is the row order the
store returns; the PRIMARY KEY constraints of the standings and
solkoff_coefficients tables are carried as Nodup invariants. -/
structure DB where
  teams : List TeamRow
  matchRows : List MatchRow
  standings : List StandingRow
  solkoff : List SolkoffRow
  standings_nodup : (standings.map StandingRow.team_id).Nodup
  solkoff_nodup : (solkoff.map SolkoffRow.team_id).Nodup

/-- Lookup of a team row by id (SELECT ... FROM teams WHERE id = ?). -/
def findTeam (db : DB) (t : ℤ) : Option TeamRow :=
  db.teams.find? (fun r => r.id == t)

/-- Lookup of a standings row by team id (PRIMARY KEY lookup). -/
def standingOf (db : DB) (t : ℤ) : Option StandingRow :=
  db.standings.find? (fun r => r.team_id == t)

/-- COALESCE(sc.solkoff_value, 0) for a team. -/
def solkoffValueOf (db : DB) (t : ℤ) : ℚ :=
  ((db.solkoff.find? (fun r => r.team_id == t)).map SolkoffRow.solkoff_value).getD 0

/-! ## Solkoff Calculator (backend/solkoff_calculator.py) -/

/-- Set of opponents of a team over its FINISHED matches, home side union
away side (SolkoffCalculator.get_opponents).  Only the status is filtered;
scores are not consulted. -/
def get_opponents (db : DB) (t : ℤ) : Finset ℤ :=
  ((db.matchRows.filter
      (fun m => m.home_team_id == t && m.status == some "FINISHED")).map
        MatchRow.away_team_id).toFinset ∪
  ((db.matchRows.filter
      (fun m => m.away_team_id == t && m.status == some "FINISHED")).map
        MatchRow.home_team_id).toFinset

/-- Points-per-game extracted from one standings row, None when the row is
skipped (points null, played null or not positive), as in the body of the
opponent loop of SolkoffCalculator.calculate_solkoff. -/
def ppgOfRow (r : StandingRow) : Option ℚ :=
  match r.points, r.played with
  | some p, some g => if 0 < g then some ((p : ℚ) / (g : ℚ)) else none
  | _, _ => none

/-- SolkoffCalculator.calculate_solkoff: mean points-per-game of the
surviving opponent standings rows, rounded to 3 decimals; 0.0 when the
opponent set is empty. -/
def calculate_solkoff (db : DB) (t : ℤ) : ℚ :=
  let opponents := get_opponents db t
  if opponents = ∅ then 0
  else
    let rows := db.standings.filter (fun r => decide (r.team_id ∈ opponents))
    let ppgs := rows.filterMap ppgOfRow
    let value : ℚ := if ppgs = [] then 0 else ppgs.sum / (ppgs.length : ℚ)
    round3 value

/-- Points-per-game of a team as looked up in the standings table
(None when the row is missing or skipped). -/
def opponentPPG (db : DB) (o : ℤ) : Option ℚ := (standingOf db o).bind ppgOfRow

/-- Spec-side reading of step 2 of the Solkoff algorithm: the opponents
that survive the skipping rule (standings row present, played non-null and
positive, points non-null). -/
def solkoffSurvivors (db : DB) (t : ℤ) : Finset ℤ :=
  (get_opponents db t).filter (fun o => (opponentPPG db o).isSome)

/-- Spec-side reading of the Solkoff value: arithmetic mean of
points/played over the surviving distinct opponents, rounded to 3
decimals, and exactly 0 when no opponent survives. -/
def spec_mean_solkoff (db : DB) (t : ℤ) : ℚ :=
  let s := solkoffSurvivors db t
  if s = ∅ then 0
  else round3 ((∑ o ∈ s, (opponentPPG db o).getD 0) / (s.card : ℚ))

/-- Survivors of the skipping rule relative to an explicit standings list. -/
def survWrt (S : List StandingRow) (opp : Finset ℤ) : Finset ℤ :=
  opp.filter (fun o => ((S.find? (fun x => x.team_id == o)).bind ppgOfRow).isSome)

/-- Surviving points-per-game value relative to an explicit standings list. -/
def valWrt (S : List StandingRow) (o : ℤ) : ℚ :=
  ((S.find? (fun x => x.team_id == o)).bind ppgOfRow).getD 0

theorem solkoff_key (S : List StandingRow)
    (hnd : (S.map StandingRow.team_id).Nodup) (opp : Finset ℤ) :
    ((S.filter (fun r => decide (r.team_id ∈ opp))).filterMap ppgOfRow).sum
        = ∑ o ∈ survWrt S opp, valWrt S o
    ∧ ((S.filter (fun r => decide (r.team_id ∈ opp))).filterMap ppgOfRow).length
        = (survWrt S opp).card := by
  induction S with
  | nil =>
    constructor <;> simp [survWrt]
  | cons r S ih =>
    have hr : r.team_id ∉ S.map StandingRow.team_id := (List.nodup_cons.mp hnd).1
    have hnd' : (S.map StandingRow.team_id).Nodup := (List.nodup_cons.mp hnd).2
    obtain ⟨ih1, ih2⟩ := ih hnd'
    have hfr : S.find? (fun x => x.team_id == r.team_id) = none := by
      apply List.find?_eq_none.mpr
      intro x hx
      simp only [beq_iff_eq]
      intro hxe
      exact hr (hxe ▸ List.mem_map_of_mem StandingRow.team_id hx)
    have hne : ∀ o, o ≠ r.team_id →
        (r :: S).find? (fun x => x.team_id == o)
          = S.find? (fun x => x.team_id == o) := by
      intro o ho
      apply List.find?_cons_of_neg
      simp only [beq_iff_eq]
      exact fun h => ho h.symm
    have hvr : ∀ o ∈ survWrt S opp, valWrt (r :: S) o = valWrt S o := by
      intro o homem
      have hiss : ((S.find? (fun x => x.team_id == o)).bind ppgOfRow).isSome := by
        simpa [survWrt] using (Finset.mem_filter.mp homem).2
      have honr : o ≠ r.team_id := by
        intro h
        rw [h, hfr] at hiss
        simp at hiss
      unfold valWrt
      rw [hne o honr]
    have hsurv_notmem : r.team_id ∉ survWrt S opp := by
      simp [survWrt, hfr]
    rcases hppg : ppgOfRow r with _ | v
    · -- the leading row is skipped by the points/played rule
      have hsurv : survWrt (r :: S) opp = survWrt S opp := by
        unfold survWrt
        apply Finset.filter_congr
        intro o _
        by_cases ho : o = r.team_id
        · subst ho
          rw [List.find?_cons_of_pos _ (by simp), hfr]
          simp [hppg]
        · rw [hne o ho]
      have hlist :
          ((r :: S).filter (fun x => decide (x.team_id ∈ opp))).filterMap ppgOfRow
            = (S.filter (fun x => decide (x.team_id ∈ opp))).filterMap ppgOfRow := by
        by_cases hmem : r.team_id ∈ opp
        · rw [List.filter_cons_of_pos (by simpa using hmem),
            List.filterMap_cons_none hppg]
        · rw [List.filter_cons_of_neg (by simpa using hmem)]
      rw [hlist, hsurv]
      exact ⟨ih1.trans (Finset.sum_congr rfl (fun o ho => (hvr o ho).symm)), ih2⟩
    · -- the leading row yields a points-per-game sample
      by_cases hmem : r.team_id ∈ opp
      · have hsurv : survWrt (r :: S) opp = insert r.team_id (survWrt S opp) := by
          unfold survWrt
          ext o
          simp only [Finset.mem_filter, Finset.mem_insert]
          constructor
          · rintro ⟨ho, hiss⟩
            by_cases hoe : o = r.team_id
            · exact Or.inl hoe
            · rw [hne o hoe] at hiss
              exact Or.inr ⟨ho, hiss⟩
          · rintro (hoe | ⟨ho, hiss⟩)
            · subst hoe
              refine ⟨hmem, ?_⟩
              rw [List.find?_cons_of_pos _ (by simp)]
              simp [hppg]
            · have hoe : o ≠ r.team_id := by
                intro h
                rw [h, hfr] at hiss
                simp at hiss
              rw [hne o hoe]
              exact ⟨ho, hiss⟩
        have hvrid : valWrt (r :: S) r.team_id = v := by
          unfold valWrt
          rw [List.find?_cons_of_pos _ (by simp)]
          simp [hppg]
        have hlist :
            ((r :: S).filter (fun x => decide (x.team_id ∈ opp))).filterMap ppgOfRow
              = v :: (S.filter (fun x => decide (x.team_id ∈ opp))).filterMap ppgOfRow := by
          rw [List.filter_cons_of_pos (by simpa using hmem),
            List.filterMap_cons_some hppg]
        constructor
        · rw [hlist, hsurv, List.sum_cons, Finset.sum_insert hsurv_notmem, hvrid,
            ih1]
          exact congrArg (v + ·) (Finset.sum_congr rfl (fun o ho => (hvr o ho).symm))
        · rw [hlist, hsurv, List.length_cons, Finset.card_insert_of_not_mem hsurv_notmem,
            ih2]
      · have hsurv : survWrt (r :: S) opp = survWrt S opp := by
          unfold survWrt
          apply Finset.filter_congr
          intro o ho
          have hoe : o ≠ r.team_id := fun h => hmem (h ▸ ho)
          rw [hne o hoe]
        have hlist :
            ((r :: S).filter (fun x => decide (x.team_id ∈ opp))).filterMap ppgOfRow
              = (S.filter (fun x => decide (x.team_id ∈ opp))).filterMap ppgOfRow := by
          rw [List.filter_cons_of_neg (by simpa using hmem)]
        rw [hlist, hsurv]
        exact ⟨ih1.trans (Finset.sum_congr rfl (fun o ho => (hvr o ho).symm)), ih2⟩

theorem round3_zero : round3 0 = 0 := by
  have h0 : ⌊(0 : ℚ)⌋ = 0 := Int.floor_zero
  simp [round3, rhe, h0]

/-- Claim C1: calculate_solkoff is the 3-decimal-rounded arithmetic mean of
points/played over the distinct opponents faced in FINISHED matches, where
opponents with a missing standings row, null or zero played, or null
points are skipped entirely, and the result is exactly 0 when no opponent
survives (in particular when the team has no FINISHED match). -/
theorem calculate_solkoff_is_mean_over_distinct_opponents (db : DB) (t : ℤ) :
    calculate_solkoff db t = spec_mean_solkoff db t := by
  unfold calculate_solkoff spec_mean_solkoff
  have hsw : solkoffSurvivors db t = survWrt db.standings (get_opponents db t) := rfl
  have hvw : ∀ o, (opponentPPG db o).getD 0 = valWrt db.standings o := fun _ => rfl
  obtain ⟨hs, hl⟩ := solkoff_key db.standings db.standings_nodup (get_opponents db t)
  by_cases hopp : get_opponents db t = ∅
  · have : solkoffSurvivors db t = ∅ := by
      rw [hsw]
      unfold survWrt
      rw [hopp, Finset.filter_empty]
    simp [hopp, this]
  · simp only [if_neg hopp]
    by_cases hsurv : solkoffSurvivors db t = ∅
    · have hcard : (survWrt db.standings (get_opponents db t)).card = 0 := by
        rw [← hsw, hsurv, Finset.card_empty]
      have hlen :
          ((db.standings.filter (fun r => decide (r.team_id ∈ get_opponents db t))).filterMap
            ppgOfRow) = [] := by
        apply List.eq_nil_of_length_eq_zero
        rw [hl, hcard]
      rw [if_pos hsurv]
      simp [hlen, round3_zero]
    · have hne :
          ((db.standings.filter (fun r => decide (r.team_id ∈ get_opponents db t))).filterMap
            ppgOfRow) ≠ [] := by
        intro h
        apply hsurv
        have : (solkoffSurvivors db t).card = 0 := by
          rw [hsw, ← hl, h, List.length_nil]
        exact Finset.card_eq_zero.mp this
      rw [if_neg hsurv]
      simp only [if_neg hne]
      rw [hs, hl, hsw]
      exact congrArg round3 (by rw [Finset.sum_congr rfl (fun o _ => hvw o)])

/-! ## Common-Opponents Analyzer (backend/playoff_analyzer.py) -/

/-- Rows of the opponent query of PlayoffAnalyzer.find_common_opponents for
one team: the other endpoint of every FINISHED match the team took part
in. -/
def opponentRowsOf (db : DB) (t : ℤ) : List ℤ :=
  (db.matchRows.filter
      (fun m => (m.home_team_id == t || m.away_team_id == t)
        && m.status == some "FINISHED")).map
    (fun m => if m.home_team_id = t then m.away_team_id else m.home_team_id)

/-- One side of find_common_opponents: the distinct opponents of a team,
with the two teams of the analysed pair themselves filtered out. -/
def teamOpponentSet (db : DB) (t other : ℤ) : Finset ℤ :=
  ((opponentRowsOf db t).filter (fun o => !(o == t) && !(o == other))).toFinset

/-- PlayoffAnalyzer.find_common_opponents: intersection of the two
opponent sets. -/
def find_common_opponents (db : DB) (t1 t2 : ℤ) : Finset ℤ :=
  teamOpponentSet db t1 t2 ∩ teamOpponentSet db t2 t1

/-- Claim C9: find_common_opponents is symmetric in its two team
arguments, over any database. -/
theorem find_common_opponents_symm (db : DB) (a b : ℤ) :
    find_common_opponents db a b = find_common_opponents db b a := by
  unfold find_common_opponents
  exact Finset.inter_comm _ _

/-- Display name of a team, "Unknown" when it is absent from the teams
table. -/
def teamNameOf (db : DB) (t : ℤ) : String :=
  ((findTeam db t).map TeamRow.name).getD "Unknown"

/-- Crest of a team, None when the team (or its crest) is absent. -/
def teamCrestOf (db : DB) (t : ℤ) : Option String :=
  (findTeam db t).bind TeamRow.crest

/-- Entry of the per-team match list built inside
calculate_league_table. -/
structure MatchEntry where
  opponentId : ℤ
  opponentName : String
  opponentCrest : Option String
  teamScore : ℤ
  opponentScore : ℤ
  outcome : String
  date : Option String
  isHome : Bool
  deriving DecidableEq

/-- Counters accumulated by the match loop of calculate_league_table. -/
structure BaseStats where
  played : ℤ
  won : ℤ
  drawn : ℤ
  lost : ℤ
  points : ℤ
  goalsFor : ℤ
  goalsAgainst : ℤ
  entries : List MatchEntry
  deriving DecidableEq

def emptyBase : BaseStats := ⟨0, 0, 0, 0, 0, 0, 0, []⟩

/-- The home-side update of the match loop (3 points win, 1 draw). -/
def applyAsHome (db : DB) (s : BaseStats) (m : MatchRow) (hs aw : ℤ) : BaseStats :=
  let outcome := if hs > aw then "win" else if hs < aw then "loss" else "draw"
  { played := s.played + 1
    won := s.won + (if hs > aw then 1 else 0)
    drawn := s.drawn + (if ¬ hs > aw ∧ ¬ hs < aw then 1 else 0)
    lost := s.lost + (if ¬ hs > aw ∧ hs < aw then 1 else 0)
    points := s.points + (if hs > aw then 3 else if hs < aw then 0 else 1)
    goalsFor := s.goalsFor + hs
    goalsAgainst := s.goalsAgainst + aw
    entries := s.entries ++
      [⟨m.away_team_id, teamNameOf db m.away_team_id, teamCrestOf db m.away_team_id,
        hs, aw, outcome, m.date, true⟩] }

/-- The away-side update of the match loop. -/
def applyAsAway (db : DB) (s : BaseStats) (m : MatchRow) (hs aw : ℤ) : BaseStats :=
  let outcome := if aw > hs then "win" else if aw < hs then "loss" else "draw"
  { played := s.played + 1
    won := s.won + (if aw > hs then 1 else 0)
    drawn := s.drawn + (if ¬ aw > hs ∧ ¬ aw < hs then 1 else 0)
    lost := s.lost + (if ¬ aw > hs ∧ aw < hs then 1 else 0)
    points := s.points + (if aw > hs then 3 else if aw < hs then 0 else 1)
    goalsFor := s.goalsFor + aw
    goalsAgainst := s.goalsAgainst + hs
    entries := s.entries ++
      [⟨m.home_team_id, teamNameOf db m.home_team_id, teamCrestOf db m.home_team_id,
        aw, hs, outcome, m.date, false⟩] }

/-- One step of the match loop from the viewpoint of team t.  Matches with
a null score on either side are skipped entirely. -/
def statStep (db : DB) (t : ℤ) (s : BaseStats) (m : MatchRow) : BaseStats :=
  match m.home_score, m.away_score with
  | some hs, some aw =>
    let s1 := if m.home_team_id = t then applyAsHome db s m hs aw else s
    if m.away_team_id = t then applyAsAway db s1 m hs aw else s1
  | _, _ => s

/-- Accumulated counters of team t over a list of matches (the dict-based
loop of calculate_league_table, viewed per team). -/
def baseStats (db : DB) (ms : List MatchRow) (t : ℤ) : BaseStats :=
  ms.foldl (statStep db t) emptyBase

/-- FINISHED matches whose both endpoints lie in the analysed group
(the all_matches query of calculate_league_table). -/
def leagueMatches (db : DB) (ids : List ℤ) : List MatchRow :=
  db.matchRows.filter
    (fun m => ids.contains m.home_team_id && ids.contains m.away_team_id
      && m.status == some "FINISHED")

/-- Local (mini-league) Solkoff coefficient of team t: mean
points-per-game of the distinct opponents it actually faced inside the
group, using each opponent's mini-league counters; unrounded. -/
def localSolkoff (db : DB) (ids : List ℤ) (ms : List MatchRow) (t : ℤ) : ℚ :=
  let b := baseStats db ms t
  let oppIds : Finset ℤ := (b.entries.map MatchEntry.opponentId).toFinset
  let valid := oppIds.filter
    (fun o => o ∈ ids ∧ (baseStats db ms o).played > 0)
  if valid = ∅ then 0
  else (∑ o ∈ valid,
      ((baseStats db ms o).points : ℚ) / ((baseStats db ms o).played : ℚ))
    / (valid.card : ℚ)

/-- Full per-team row of the mini-league table. -/
structure TeamStats where
  teamId : ℤ
  teamName : String
  teamCrest : Option String
  played : ℤ
  won : ℤ
  drawn : ℤ
  lost : ℤ
  goalsFor : ℤ
  goalsAgainst : ℤ
  goalDifference : ℤ
  points : ℤ
  pointsPercentage : ℚ
  solkoffCoefficient : ℚ
  strengthPerGame : ℚ
  matchEntries : List MatchEntry
  deriving DecidableEq

/-- Derived mini-league row of team t (the metric loop of
calculate_league_table).  strengthPerGame uses the unrounded local
Solkoff value, while the stored solkoffCoefficient is rounded. -/
def mkTeamStats (db : DB) (ids : List ℤ) (ms : List MatchRow) (t : ℤ) : TeamStats :=
  let b := baseStats db ms t
  let pp : ℚ := if b.played > 0 then (b.points : ℚ) / ((b.played : ℚ) * 3) * 100 else 0
  let sol := localSolkoff db ids ms t
  { teamId := t
    teamName := teamNameOf db t
    teamCrest := teamCrestOf db t
    played := b.played, won := b.won, drawn := b.drawn, lost := b.lost
    goalsFor := b.goalsFor, goalsAgainst := b.goalsAgainst
    goalDifference := b.goalsFor - b.goalsAgainst
    points := b.points
    pointsPercentage := pp
    solkoffCoefficient := round3 sol
    strengthPerGame := (pp / 100) * sol
    matchEntries := b.entries }

/-- Sort key of the full-table sort; the Python sort ascends on the
negated tuple (pointsPercentage, solkoffCoefficient, strengthPerGame,
goalsFor). -/
def statsSortKey (x : TeamStats) : ℚ ×ₗ (ℚ ×ₗ (ℚ ×ₗ ℚ)) :=
  toLex (-x.pointsPercentage,
    toLex (-x.solkoffCoefficient, toLex (-x.strengthPerGame, -(x.goalsFor : ℚ))))

def statsKeyLe (x y : TeamStats) : Bool := decide (statsSortKey x ≤ statsSortKey y)

/-- Win-probability record produced by the analyzer. -/
structure WinProb where
  team1Win : ℚ
  team2Win : ℚ
  draw : ℚ
  method : String
  team1MainStrength : Option ℚ
  team2MainStrength : Option ℚ
  team1HistoricalStrength : Option ℚ
  team2HistoricalStrength : Option ℚ
  deriving DecidableEq

/-- PlayoffAnalyzer._get_main_league_strength: the main-standings strength
score, 0 when the standings row is missing, played is null or
non-positive, or points is null. -/
def get_main_league_strength (db : DB) (t : ℤ) : ℚ :=
  match standingOf db t with
  | none => 0
  | some s =>
    match s.played with
    | none => 0
    | some g =>
      if 0 < g then
        match s.points with
        | none => 0
        | some p => ((p : ℚ) * 100 / ((g : ℚ) * 3)) * solkoffValueOf db t / 100
      else 0

/-- PlayoffAnalyzer._calculate_win_probability (historical strengths
first, main strengths second, as in the Python signature). -/
def calculate_win_probability (hist1 hist2 main1 main2 : ℚ) : WinProb :=
  let c1 := main1 * (1/2) + hist1 * (1/2)
  let c2 := main2 * (1/2) + hist2 * (1/2)
  let total := c1 + c2
  if total = 0 then
    { team1Win := round3 (1/2), team2Win := round3 (1/2), draw := 0
      method := "equal_strength"
      team1MainStrength := none, team2MainStrength := none
      team1HistoricalStrength := none, team2HistoricalStrength := none }
  else
    { team1Win := round3 (c1 / total), team2Win := round3 (c2 / total), draw := 0
      method := "combined_strength"
      team1MainStrength := some (round3 main1)
      team2MainStrength := some (round3 main2)
      team1HistoricalStrength := some (round3 hist1)
      team2HistoricalStrength := some (round3 hist2) }

/-- Zero-valued stat block returned by _get_team_stats (the Python dict
carries no percentage/Solkoff/strength keys in this case; they are
modelled as 0 here). -/
def get_team_stats (db : DB) (t : ℤ) : TeamStats :=
  { teamId := t, teamName := teamNameOf db t, teamCrest := teamCrestOf db t
    played := 0, won := 0, drawn := 0, lost := 0
    goalsFor := 0, goalsAgainst := 0, goalDifference := 0, points := 0
    pointsPercentage := 0, solkoffCoefficient := 0, strengthPerGame := 0
    matchEntries := [] }

/-- Result record of calculate_league_table (the empty-common-opponents
branch carries no winProbability key, modelled as None). -/
structure LeagueTableResult where
  team1 : TeamStats
  team2 : TeamStats
  commonOpponents : List TeamRow
  fullLeagueTable : List TeamStats
  winProbability : Option WinProb

/-- PlayoffAnalyzer.calculate_league_table. -/
def calculate_league_table (db : DB) (t1 t2 : ℤ) (common : List ℤ) :
    LeagueTableResult :=
  if common = [] then
    { team1 := get_team_stats db t1, team2 := get_team_stats db t2
      commonOpponents := [], fullLeagueTable := [], winProbability := none }
  else
    let ids : List ℤ := (t1 :: t2 :: common).dedup
    let ms := leagueMatches db ids
    let s1 := mkTeamStats db ids ms t1
    let s2 := mkTeamStats db ids ms t2
    { team1 := s1
      team2 := s2
      commonOpponents := common.filterMap (findTeam db)
      fullLeagueTable := (ids.map (mkTeamStats db ids ms)).mergeSort statsKeyLe
      winProbability := some
        (calculate_win_probability s1.strengthPerGame s2.strengthPerGame
          (get_main_league_strength db t1) (get_main_league_strength db t2)) }

/-- Neutral default tagged points_per_game (the .get default of
get_pairs_by_stage). -/
def pointsPerGameDefault : WinProb :=
  ⟨1/2, 1/2, 0, "points_per_game", none, none, none, none⟩

/-- Neutral default tagged no_common_opponents (get_pairs_by_stage). -/
def noCommonOpponentsDefault : WinProb :=
  ⟨1/2, 1/2, 0, "no_common_opponents", none, none, none, none⟩

/-- Neutral default tagged error (the except branch of
get_pairs_by_stage). -/
def errorDefault : WinProb :=
  ⟨1/2, 1/2, 0, "error", none, none, none, none⟩

/-! ## Claim C2: the win-probability blend -/

/-- Spec-side reading of the main-standings strength: (points percentage
divided by 100) times the stored global Solkoff coefficient, 0 if
unavailable. -/
def specMainStrength (db : DB) (t : ℤ) : ℚ :=
  match standingOf db t with
  | none => 0
  | some s =>
    match s.points, s.played with
    | some p, some g =>
      if 0 < g then ((p : ℚ) / ((g : ℚ) * 3) * 100) / 100 * solkoffValueOf db t
      else 0
    | _, _ => 0

/-- Spec-side reading of the blended win probability: combined strengths
are half main plus half local; probabilities are the shares of the
combined total, rounded to 3 decimals; a zero total yields exactly
one half each tagged equal_strength, otherwise the result is tagged
combined_strength and carries the four components rounded to 3
decimals. -/
def specCombinedWinProb (main1 main2 local1 local2 : ℚ) : WinProb :=
  let c1 := (1/2) * main1 + (1/2) * local1
  let c2 := (1/2) * main2 + (1/2) * local2
  if c1 + c2 = 0 then
    ⟨1/2, 1/2, 0, "equal_strength", none, none, none, none⟩
  else
    ⟨round3 (c1 / (c1 + c2)), round3 (c2 / (c1 + c2)), 0, "combined_strength",
      some (round3 main1), some (round3 main2),
      some (round3 local1), some (round3 local2)⟩

theorem round3_half : round3 (1/2) = 1/2 := by
  have h : (1000 : ℚ) * (1/2) = ((500 : ℤ) : ℚ) + 0 := by norm_num
  unfold round3
  rw [h, rhe_int_add 500 0 le_rfl one_pos]
  norm_num

theorem calculate_win_probability_eq_spec (h1 h2 m1 m2 : ℚ) :
    calculate_win_probability h1 h2 m1 m2 = specCombinedWinProb m1 m2 h1 h2 := by
  unfold calculate_win_probability specCombinedWinProb
  have e1 : m1 * (1/2) + h1 * (1/2) = (1/2) * m1 + (1/2) * h1 := by ring
  have e2 : m2 * (1/2) + h2 * (1/2) = (1/2) * m2 + (1/2) * h2 := by ring
  rw [e1, e2, round3_half]

theorem get_main_league_strength_eq_spec (db : DB) (t : ℤ) :
    get_main_league_strength db t = specMainStrength db t := by
  unfold get_main_league_strength specMainStrength
  rcases standingOf db t with _ | s
  · rfl
  · rcases s with ⟨tid, pl, pts⟩
    rcases pl with _ | g
    · rcases pts with _ | p <;> rfl
    · rcases pts with _ | p
      · simp
      · simp only []
        by_cases hg : 0 < g
        · rw [if_pos hg, if_pos hg]
          ring
        · rw [if_neg hg, if_neg hg]

/-- Claim C2: for every analysis with a non-empty common-opponents set,
the win probability is the 50/50 blend of main-standings strength
((points percentage / 100) times the global Solkoff coefficient, 0 if
unavailable) and mini-league strengthPerGame, with shares of the combined
total rounded to 3 decimals, tagged equal_strength exactly when the
combined total is zero and combined_strength (with the four components,
rounded) otherwise. -/
theorem league_table_win_probability_formula (db : DB) (t1 t2 : ℤ)
    (common : List ℤ) (h : common ≠ []) :
    (calculate_league_table db t1 t2 common).winProbability =
      some (specCombinedWinProb (specMainStrength db t1) (specMainStrength db t2)
        (calculate_league_table db t1 t2 common).team1.strengthPerGame
        (calculate_league_table db t1 t2 common).team2.strengthPerGame) := by
  unfold calculate_league_table
  rw [if_neg h]
  simp only []
  rw [calculate_win_probability_eq_spec, get_main_league_strength_eq_spec,
    get_main_league_strength_eq_spec]

/-! ## Claim C7: the full-table sort contract -/

/-- Spec-side reading of the ranking contract: descending lexicographic
comparison on (pointsPercentage, solkoffCoefficient, strengthPerGame,
goalsFor). -/
def specDescLexGE (x y : TeamStats) : Prop :=
  x.pointsPercentage > y.pointsPercentage ∨
    (x.pointsPercentage = y.pointsPercentage ∧
      (x.solkoffCoefficient > y.solkoffCoefficient ∨
        (x.solkoffCoefficient = y.solkoffCoefficient ∧
          (x.strengthPerGame > y.strengthPerGame ∨
            (x.strengthPerGame = y.strengthPerGame ∧
              x.goalsFor ≥ y.goalsFor)))))

theorem statsKeyLe_implies_spec (x y : TeamStats) (h : statsKeyLe x y = true) :
    specDescLexGE x y := by
  simp only [statsKeyLe, decide_eq_true_eq, statsSortKey] at h
  rw [Prod.Lex.le_iff] at h
  unfold specDescLexGE
  rcases h with h | ⟨h1, h⟩
  · exact Or.inl (by simpa using neg_lt_neg_iff.mp h)
  · refine Or.inr ⟨neg_inj.mp h1, ?_⟩
    rw [Prod.Lex.le_iff] at h
    rcases h with h | ⟨h2, h⟩
    · exact Or.inl (by simpa using neg_lt_neg_iff.mp h)
    · refine Or.inr ⟨neg_inj.mp h2, ?_⟩
      rw [Prod.Lex.le_iff] at h
      rcases h with h | ⟨h3, h⟩
      · exact Or.inl (by simpa using neg_lt_neg_iff.mp h)
      · refine Or.inr ⟨neg_inj.mp h3, ?_⟩
        have := neg_le_neg_iff.mp h
        exact_mod_cast this

theorem statsKeyLe_trans (a b c : TeamStats)
    (hab : statsKeyLe a b = true) (hbc : statsKeyLe b c = true) :
    statsKeyLe a c = true := by
  simp only [statsKeyLe, decide_eq_true_eq] at *
  exact le_trans hab hbc

theorem statsKeyLe_total (a b : TeamStats) :
    (statsKeyLe a b || statsKeyLe b a) = true := by
  rcases le_total (statsSortKey a) (statsSortKey b) with h | h <;>
    simp [statsKeyLe, h]

/-- Claim C7: in every mini-league result the fullLeagueTable is sorted so
that every earlier entry dominates every later entry under descending
lexicographic comparison of (pointsPercentage, solkoffCoefficient,
strengthPerGame, goalsFor). -/
theorem full_table_sort_contract (db : DB) (t1 t2 : ℤ) (common : List ℤ) :
    (calculate_league_table db t1 t2 common).fullLeagueTable.Pairwise
      specDescLexGE := by
  unfold calculate_league_table
  by_cases h : common = []
  · rw [if_pos h]
    exact List.Pairwise.nil
  · rw [if_neg h]
    simp only []
    exact (List.sorted_mergeSort statsKeyLe_trans statsKeyLe_total _).imp
      (fun hab => statsKeyLe_implies_spec _ _ hab)

/-! ## Knockout Pair/Stage Classifier (backend/playoff_analyzer.py) -/

/-- Literal prefix test on character lists. -/
def litPrefixMatch : List Char → List Char → Bool
  | [], _ => true
  | _ :: _, [] => false
  | p :: ps, c :: cs => p == c && litPrefixMatch ps cs

/-- Literal substring test on character lists. -/
def litContains (pat : List Char) : List Char → Bool
  | [] => litPrefixMatch pat []
  | c :: cs => litPrefixMatch pat (c :: cs) || litContains pat cs

/-- Python substring containment check (the in operator on str). -/
def containsStr (s pat : String) : Bool := litContains pat.data s.data

/-- Python truthiness of an optional string: None and the empty string are
falsy. -/
def optTruthy (o : Option String) : Option String :=
  o.bind (fun s => if s = "" then none else some s)

/-- Round-text classification of the get_playoff_pairs loop (display
labels). -/
def roundStagePairs (r : String) : Option String :=
  let u := r.toUpper
  if containsStr u "PLAY_OFF" || containsStr u "PLAYOFF" then
    some "Knockout Round Play-off"
  else if containsStr u "ROUND_OF_16" || containsStr u "ROUND OF 16"
      || containsStr u "LAST_16" then some "Round of 16"
  else if containsStr u "QUARTER" then some "Quarter-finals"
  else if containsStr u "SEMI" then some "Semi-finals"
  else if containsStr u "FINAL" then some "Final"
  else none

/-- Stage-text classification of the get_playoff_pairs loop. -/
def stageStagePairs (s : String) : Option String :=
  let u := s.toUpper
  if containsStr u "KNOCKOUT" || containsStr u "PLAY_OFF" then
    some "Knockout Round Play-off"
  else if containsStr u "ROUND_OF_16" || containsStr u "LAST_16" then
    some "Round of 16"
  else if containsStr u "QUARTER" then some "Quarter-finals"
  else if containsStr u "SEMI" then some "Semi-finals"
  else if containsStr u "FINAL" then some "Final"
  else none

/-- Matchday fallback of the get_playoff_pairs loop. -/
def matchdayStagePairs (md : ℤ) : String :=
  if md ≤ 8 then "Knockout Round Play-off"
  else if md ≤ 10 then "Round of 16"
  else if md ≤ 12 then "Quarter-finals"
  else if md ≤ 14 then "Semi-finals"
  else "Final"

/-- Per-match stage classification of the get_playoff_pairs loop: round
text first, stage text second, matchday fallback last (None models the
TypeError Python raises when the fallback is reached with a null
matchday). -/
def pairMatchStage (m : MatchRow) : Option String :=
  match (optTruthy m.round).bind roundStagePairs with
  | some s => some s
  | none =>
    match (optTruthy m.stage).bind stageStagePairs with
    | some s => some s
    | none => m.matchday.map matchdayStagePairs

/-- Round-text classification of get_current_stage (stage constants). -/
def roundStageCur (r : String) : Option String :=
  let u := r.toUpper
  if containsStr u "PLAY_OFF" || containsStr u "PLAYOFF" then
    some "KNOCKOUT_PLAYOFF"
  else if containsStr u "ROUND_OF_16" || containsStr u "ROUND OF 16"
      || containsStr u "LAST_16" then some "ROUND_OF_16"
  else if containsStr u "QUARTER" then some "QUARTER_FINAL"
  else if containsStr u "SEMI" then some "SEMI_FINAL"
  else if containsStr u "FINAL" then some "FINAL"
  else none

/-- Stage-text classification of get_current_stage. -/
def stageStageCur (s : String) : Option String :=
  let u := s.toUpper
  if containsStr u "KNOCKOUT" || containsStr u "PLAY_OFF" then
    some "KNOCKOUT_PLAYOFF"
  else if containsStr u "ROUND_OF_16" || containsStr u "LAST_16" then
    some "ROUND_OF_16"
  else if containsStr u "QUARTER" then some "QUARTER_FINAL"
  else if containsStr u "SEMI" then some "SEMI_FINAL"
  else if containsStr u "FINAL" then some "FINAL"
  else none

/-- Matchday fallback of get_current_stage (fires for matchday at least
7; a null matchday raises in Python and is modelled as no
contribution). -/
def matchdayStageCur (md : ℤ) : Option String :=
  if 7 ≤ md then
    some (if md ≤ 8 then "KNOCKOUT_PLAYOFF"
      else if md ≤ 10 then "ROUND_OF_16"
      else if md ≤ 12 then "QUARTER_FINAL"
      else if md ≤ 14 then "SEMI_FINAL"
      else "FINAL")
  else none

/-- Skip condition of the get_current_stage scan: LEAGUE_STAGE tag or a
non-empty group name. -/
def curSkip (m : MatchRow) : Bool :=
  m.stage == some "LEAGUE_STAGE" ||
    (match m.group_name with
     | some g => !(g == "")
     | none => false)

/-- Stages one scanned match contributes to the stages_found set of
get_current_stage.  All three rules are evaluated; there is no early
stop. -/
def curStagesOfMatch (m : MatchRow) : List String :=
  ((optTruthy m.round).bind roundStageCur).toList ++
  ((optTruthy m.stage).bind stageStageCur).toList ++
  (m.matchday.bind matchdayStageCur).toList

/-- SQL LIKE matching restricted to the shapes used here: the pattern is
wrapped in percent wildcards and an underscore matches any single
character. -/
def wildPrefixMatch : List Char → List Char → Bool
  | [], _ => true
  | _ :: _, [] => false
  | p :: ps, c :: cs => (p == '_' || p == c) && wildPrefixMatch ps cs

def wildContains (pat : List Char) : List Char → Bool
  | [] => wildPrefixMatch pat []
  | c :: cs => wildPrefixMatch pat (c :: cs) || wildContains pat cs

def sqlLikeContains (s pat : String) : Bool := wildContains pat.data s.data

/-- Status filter shared by the pair queries. -/
def statusOk (m : MatchRow) : Bool :=
  m.status == some "SCHEDULED" || m.status == some "TIMED"
    || m.status == some "LIVE" || m.status == some "IN_PLAY"
    || m.status == some "PAUSED" || m.status == some "FINISHED"

/-- SQL condition m.stage != 'LEAGUE_STAGE' of the get_playoff_pairs
query; a NULL stage makes the comparison NULL, which does not satisfy the
WHERE clause. -/
def sqlStageNotLeague (m : MatchRow) : Bool :=
  match m.stage with
  | some s => !(s == "LEAGUE_STAGE")
  | none => false

/-- SQL condition: round IS NOT NULL and UPPER(round) LIKE one of the
five knockout patterns. -/
def sqlRoundKnockout (m : MatchRow) : Bool :=
  match m.round with
  | some r =>
    let u := r.toUpper
    sqlLikeContains u "PLAY_OFF" || sqlLikeContains u "ROUND_OF_16"
      || sqlLikeContains u "QUARTER_FINAL" || sqlLikeContains u "SEMI_FINAL"
      || sqlLikeContains u "FINAL"
  | none => false

/-- SQL condition group_name IS NULL OR group_name = ''. -/
def groupEmptySql (m : MatchRow) : Bool :=
  match m.group_name with
  | none => true
  | some g => g == ""

/-- SQL condition m.stage IS NULL OR m.stage != 'LEAGUE_STAGE'. -/
def stageNullOrNotLeague (m : MatchRow) : Bool :=
  match m.stage with
  | none => true
  | some s => !(s == "LEAGUE_STAGE")

/-- The matchday fallback disjunct of the get_playoff_pairs WHERE
clause. -/
def sqlMatchday7 (m : MatchRow) : Bool :=
  match m.matchday with
  | some md => decide (7 ≤ md) && groupEmptySql m && stageNullOrNotLeague m
  | none => false

/-- WHERE clause of the get_playoff_pairs (no stage filter) query. -/
def pairsSqlFilter (m : MatchRow) : Bool :=
  statusOk m && sqlStageNotLeague m &&
    (m.stage == some "KNOCKOUT_OUT" || m.stage == some "KNOCKOUT_ROUND"
      || sqlRoundKnockout m || sqlMatchday7 m)

/-- Round LIKE patterns of the stage_filters table of
get_pairs_by_stage. -/
def roundPatternsFor (stage : String) : List String :=
  if stage = "KNOCKOUT_PLAYOFF" then ["PLAY_OFF", "PLAYOFF"]
  else if stage = "ROUND_OF_16" then ["ROUND_OF_16", "ROUND OF 16", "LAST_16"]
  else if stage = "QUARTER_FINAL" then ["QUARTER"]
  else if stage = "SEMI_FINAL" then ["SEMI"]
  else if stage = "FINAL" then ["FINAL"]
  else []

/-- Stage equality values of the stage_filters table (non-empty only for
the play-off stage). -/
def stageValuesFor (stage : String) : List String :=
  if stage = "KNOCKOUT_PLAYOFF" then
    ["KNOCKOUT_OUT", "KNOCKOUT_ROUND", "PLAYOFFS", "PLAY_OFF"]
  else []

/-- Matchday ranges of the stage_filters table; the play-off range is the
widened 1 to 10. -/
def matchdayRangeFor (stage : String) : Option (ℤ × ℤ) :=
  if stage = "KNOCKOUT_PLAYOFF" then some (1, 10)
  else if stage = "ROUND_OF_16" then some (9, 10)
  else if stage = "QUARTER_FINAL" then some (11, 12)
  else if stage = "SEMI_FINAL" then some (13, 14)
  else if stage = "FINAL" then some (15, 999)
  else none

def validStage (stage : String) : Bool :=
  stage == "KNOCKOUT_PLAYOFF" || stage == "ROUND_OF_16"
    || stage == "QUARTER_FINAL" || stage == "SEMI_FINAL" || stage == "FINAL"

def stageDisplayName (stage : String) : String :=
  if stage = "KNOCKOUT_PLAYOFF" then "Knockout Round Play-off"
  else if stage = "ROUND_OF_16" then "Round of 16"
  else if stage = "QUARTER_FINAL" then "Quarter-finals"
  else if stage = "SEMI_FINAL" then "Semi-finals"
  else if stage = "FINAL" then "Final"
  else stage

/-- WHERE clause built by get_pairs_by_stage for a requested stage (the
LEAGUE_STAGE exclusion is deliberately commented out in the source). -/
def byStageSqlFilter (stage : String) (m : MatchRow) : Bool :=
  statusOk m &&
    ((match m.round with
      | some r => (roundPatternsFor stage).any
          (fun pat => sqlLikeContains r.toUpper pat)
      | none => false)
     || (match m.stage with
         | some s => (stageValuesFor stage).any (fun v => s == v)
         | none => false)
     || (match matchdayRangeFor stage, m.matchday with
         | some (lo, hi), some md =>
           decide (lo ≤ md) && decide (md ≤ hi) && groupEmptySql m
             && stageNullOrNotLeague m
         | _, _ => false))

/-! ## Pair construction -/

/-- Team identity block of a pair record (name is optional because the
no-stage-filter path stores the nullable stage column there). -/
structure PairTeam where
  id : ℤ
  name : Option String
  crest : Option String
  deriving DecidableEq

/-- One logical knockout pair. -/
structure PairEntry where
  matchId : ℤ
  team1 : PairTeam
  team2 : PairTeam
  matchday : Option ℤ
  stage : Option String
  status : Option String
  date : Option String
  apiStage : Option String
  apiRound : Option String
  winProbability : Option WinProb
  deriving DecidableEq

/-- A joined row of the pair queries: the match together with the home
and away team rows (the SQL inner JOIN drops matches whose teams are
missing). -/
def joinedRows (db : DB) (f : MatchRow → Bool) :
    List (MatchRow × TeamRow × TeamRow) :=
  db.matchRows.filterMap (fun m =>
    match findTeam db m.home_team_id, findTeam db m.away_team_id with
    | some th, some ta => if f m then some (m, th, ta) else none
    | _, _ => none)

/-- Unordered pair key (the sorted team-ID tuple). -/
def pairKey (m : MatchRow) : ℤ × ℤ :=
  if m.home_team_id ≤ m.away_team_id then (m.home_team_id, m.away_team_id)
  else (m.away_team_id, m.home_team_id)

/-- The date field stored on a pair: the match date when it is truthy and
passes _is_valid_date (the clock-dependent validity check is a
parameter). -/
def pairDateField (validDate : String → Bool) (m : MatchRow) : Option String :=
  (optTruthy m.date).bind (fun d => if validDate d then some d else none)

/-- Pair creation of the no-stage-filter path of get_playoff_pairs.
The team1 name and crest receive the stage and round columns
(match[6] and match[7]) and the team2 name and crest receive the home
team's name and crest (match[8] and match[9]), exactly as the source
does. -/
def mkPairAllPairs (validDate : String → Bool)
    (row : MatchRow × TeamRow × TeamRow) : PairEntry :=
  let m := row.1
  let th := row.2.1
  { matchId := m.id
    team1 := { id := m.home_team_id, name := m.stage, crest := m.round }
    team2 := { id := m.away_team_id, name := some th.name, crest := th.crest }
    matchday := m.matchday
    stage := pairMatchStage m
    status := m.status
    date := pairDateField validDate m
    apiStage := m.stage
    apiRound := m.round
    winProbability := none }

/-- Pair creation of get_pairs_by_stage (reads the correct name and crest
columns match[8] to match[11]). -/
def mkPairByStage (validDate : String → Bool) (stage : String)
    (row : MatchRow × TeamRow × TeamRow) : PairEntry :=
  let m := row.1
  let th := row.2.1
  let ta := row.2.2
  { matchId := m.id
    team1 := { id := m.home_team_id, name := some th.name, crest := th.crest }
    team2 := { id := m.away_team_id, name := some ta.name, crest := ta.crest }
    matchday := m.matchday
    stage := some (stageDisplayName stage)
    status := m.status
    date := pairDateField validDate m
    apiStage := m.stage
    apiRound := m.round
    winProbability := none }

/-- In-place update of an existing pair entry by a more recent match (the
else branch of the loop); team identity, stage and winProbability are
never touched. -/
def updatePair (validDate : String → Bool) (m : MatchRow) (p : PairEntry) :
    PairEntry :=
  { p with
    matchId := m.id
    matchday := m.matchday
    status := m.status
    date := match pairDateField validDate m with
            | some d => some d
            | none => p.date }

/-- One step of the pairs_dict loop.  The most-recent comparison involves
Python comparisons of possibly null matchdays and dates, so it is taken
as a parameter upd; the update action itself is fixed. -/
def insertPairStep (validDate : String → Bool)
    (upd : MatchRow → PairEntry → Bool)
    (mk : MatchRow × TeamRow × TeamRow → PairEntry)
    (acc : List ((ℤ × ℤ) × PairEntry)) (row : MatchRow × TeamRow × TeamRow) :
    List ((ℤ × ℤ) × PairEntry) :=
  let k := pairKey row.1
  match acc.find? (fun e => decide (e.1 = k)) with
  | none => acc ++ [(k, mk row)]
  | some _ =>
    acc.map (fun e =>
      if decide (e.1 = k) && upd row.1 e.2
      then (e.1, updatePair validDate row.1 e.2) else e)

/-- The pairs_dict fold over the queried rows (insertion order is kept,
as in a Python dict), followed by taking the values. -/
def buildPairs (validDate : String → Bool) (upd : MatchRow → PairEntry → Bool)
    (mk : MatchRow × TeamRow × TeamRow → PairEntry)
    (rows : List (MatchRow × TeamRow × TeamRow)) : List PairEntry :=
  (rows.foldl (insertPairStep validDate upd mk) []).map Prod.snd

/-- Stage priority used by the final sort of get_playoff_pairs (99 for
anything unknown). -/
def stagePriorityOf (s : Option String) : ℤ :=
  match s with
  | some "Knockout Round Play-off" => 1
  | some "Round of 16" => 2
  | some "Quarter-finals" => 3
  | some "Semi-finals" => 4
  | some "Final" => 5
  | _ => 99

/-- Final sort comparator of get_playoff_pairs: stage priority, then
matchday, then date (null matchday and date are given a fixed order here;
Python would raise on such comparisons). -/
def pairLeAll (x y : PairEntry) : Bool :=
  let px := stagePriorityOf x.stage
  let py := stagePriorityOf y.stage
  if px ≠ py then decide (px < py)
  else
    let mx := x.matchday.getD 0
    let my := y.matchday.getD 0
    if mx ≠ my then decide (mx < my)
    else decide ¬ (y.date.getD "" < x.date.getD "")

/-- Final sort comparator of get_pairs_by_stage: matchday then date. -/
def pairLeByStage (x y : PairEntry) : Bool :=
  let mx := x.matchday.getD 0
  let my := y.matchday.getD 0
  if mx ≠ my then decide (mx < my)
  else decide ¬ (y.date.getD "" < x.date.getD "")

/-- PlayoffAnalyzer.get_playoff_pairs with no stage filter. -/
def get_playoff_pairs (db : DB) (validDate : String → Bool)
    (upd : MatchRow → PairEntry → Bool) : List PairEntry :=
  let rows := (joinedRows db pairsSqlFilter).filter
    (fun row => !(row.1.stage == some "LEAGUE_STAGE"))
  (buildPairs validDate upd (mkPairAllPairs validDate) rows).mergeSort pairLeAll

/-- Materialized list of common opponents (list(common_opponents)); its
set of elements is find_common_opponents. -/
def common_opponents_list (db : DB) (t1 t2 : ℤ) : List ℤ :=
  (((opponentRowsOf db t1).filter
      (fun o => !(o == t1) && !(o == t2))).dedup).filter
    (fun o => decide (o ∈ teamOpponentSet db t2 t1))

/-- Win probability attached to a pair of get_pairs_by_stage when the
analyzer does not raise: the league-table probability when common
opponents exist (with the points_per_game default of the .get call),
otherwise the no_common_opponents default. -/
def pairWinProbPure (db : DB) (t1 t2 : ℤ) : WinProb :=
  let common := common_opponents_list db t1 t2
  if common ≠ [] then
    ((calculate_league_table db t1 t2 common).winProbability).getD
      pointsPerGameDefault
  else noCommonOpponentsDefault

/-- Per-pair win-probability attachment with the exception guard: a
failing computation (environmental, parameter failing) yields the error
default instead of propagating. -/
def attachWinProb (db : DB) (failing : ℤ → ℤ → Bool) (p : PairEntry) :
    PairEntry :=
  if failing p.team1.id p.team2.id then
    { p with winProbability := some errorDefault }
  else
    { p with winProbability := some (pairWinProbPure db p.team1.id p.team2.id) }

/-- PlayoffAnalyzer.get_pairs_by_stage. -/
def get_pairs_by_stage (db : DB) (validDate : String → Bool)
    (upd : MatchRow → PairEntry → Bool) (failing : ℤ → ℤ → Bool)
    (stage : String) : List PairEntry :=
  if validStage stage then
    let rows := (joinedRows db (byStageSqlFilter stage)).filter
      (fun row => !(row.1.stage == some "LEAGUE_STAGE"))
    ((buildPairs validDate upd (mkPairByStage validDate stage) rows).map
      (attachWinProb db failing)).mergeSort pairLeByStage
  else []

/-! ## Invariants of the pairs_dict fold -/

theorem foldl_insert_invariant (validDate : String → Bool)
    (upd : MatchRow → PairEntry → Bool)
    (mk : MatchRow × TeamRow × TeamRow → PairEntry) (P : PairEntry → Prop)
    (hupd : ∀ m p, P p → P (updatePair validDate m p)) :
    ∀ (rows : List (MatchRow × TeamRow × TeamRow))
      (acc : List ((ℤ × ℤ) × PairEntry)),
      (∀ e ∈ acc, P e.2) → (∀ row ∈ rows, P (mk row)) →
      ∀ e ∈ rows.foldl (insertPairStep validDate upd mk) acc, P e.2 := by
  intro rows
  induction rows with
  | nil =>
    intro acc hacc _ e he
    exact hacc e he
  | cons row rows ih =>
    intro acc hacc hmk e he
    rw [List.foldl_cons] at he
    refine ih _ ?_ (fun r hr => hmk r (List.mem_cons_of_mem _ hr)) e he
    intro e' he'
    simp only [insertPairStep] at he'
    rcases hfind : (acc.find? fun e => decide (e.1 = pairKey row.1)) with _ | found
    · rw [hfind] at he'
      rcases List.mem_append.mp he' with h | h
      · exact hacc e' h
      · have : e' = (pairKey row.1, mk row) := by simpa using h
        rw [this]
        exact hmk row (List.mem_cons_self _ _)
    · rw [hfind] at he'
      obtain ⟨e'', he'', heq⟩ := List.mem_map.mp he'
      by_cases hcond : (decide (e''.1 = pairKey row.1) && upd row.1 e''.2) = true
      · rw [if_pos hcond] at heq
        rw [← heq]
        exact hupd row.1 e''.2 (hacc e'' he'')
      · rw [if_neg hcond] at heq
        rw [← heq]
        exact hacc e'' he''

theorem buildPairs_invariant (validDate : String → Bool)
    (upd : MatchRow → PairEntry → Bool)
    (mk : MatchRow × TeamRow × TeamRow → PairEntry)
    (rows : List (MatchRow × TeamRow × TeamRow)) (P : PairEntry → Prop)
    (hmk : ∀ row ∈ rows, P (mk row))
    (hupd : ∀ m p, P p → P (updatePair validDate m p)) :
    ∀ p ∈ buildPairs validDate upd mk rows, P p := by
  intro p hp
  unfold buildPairs at hp
  obtain ⟨e, he, rfl⟩ := List.mem_map.mp hp
  exact foldl_insert_invariant validDate upd mk P hupd rows []
    (by intro e he; exact absurd he (List.not_mem_nil e)) hmk e he

/-! ## Claim C10: the shifted identity columns of get_playoff_pairs -/

/-- Claim C10: on the no-stage-filter path every pair's team1 name and
crest come from the stage and round columns and its team2 name and crest
from the home team's name and crest, so the away team's name and crest
never appear; on the get_pairs_by_stage path the correct columns are
read. -/
theorem playoff_pairs_identity_columns :
    (∀ (db : DB) (validDate : String → Bool) (upd : MatchRow → PairEntry → Bool)
      (p : PairEntry), p ∈ get_playoff_pairs db validDate upd →
      ∃ row ∈ joinedRows db pairsSqlFilter,
        p.team1.id = row.1.home_team_id ∧
        p.team1.name = row.1.stage ∧
        p.team1.crest = row.1.round ∧
        p.team2.id = row.1.away_team_id ∧
        p.team2.name = some row.2.1.name ∧
        p.team2.crest = row.2.1.crest) ∧
    (∀ (db : DB) (validDate : String → Bool) (upd : MatchRow → PairEntry → Bool)
      (failing : ℤ → ℤ → Bool) (stage : String) (p : PairEntry),
      p ∈ get_pairs_by_stage db validDate upd failing stage →
      ∃ row ∈ joinedRows db (byStageSqlFilter stage),
        p.team1.id = row.1.home_team_id ∧
        p.team1.name = some row.2.1.name ∧
        p.team1.crest = row.2.1.crest ∧
        p.team2.id = row.1.away_team_id ∧
        p.team2.name = some row.2.2.name ∧
        p.team2.crest = row.2.2.crest) := by
  constructor
  · intro db validDate upd p hp
    unfold get_playoff_pairs at hp
    have hp' := (List.mergeSort_perm _ pairLeAll).mem_iff.mp hp
    have := buildPairs_invariant validDate upd (mkPairAllPairs validDate)
      ((joinedRows db pairsSqlFilter).filter
        (fun row => !(row.1.stage == some "LEAGUE_STAGE")))
      (fun q => ∃ row ∈ joinedRows db pairsSqlFilter,
        q.team1.id = row.1.home_team_id ∧
        q.team1.name = row.1.stage ∧
        q.team1.crest = row.1.round ∧
        q.team2.id = row.1.away_team_id ∧
        q.team2.name = some row.2.1.name ∧
        q.team2.crest = row.2.1.crest)
      ?_ ?_ p hp'
    · exact this
    · intro row hrow
      exact ⟨row, List.mem_of_mem_filter hrow,
        rfl, rfl, rfl, rfl, rfl, rfl⟩
    · intro m q hq
      obtain ⟨row, hrow, h1, h2, h3, h4, h5, h6⟩ := hq
      exact ⟨row, hrow, h1, h2, h3, h4, h5, h6⟩
  · intro db validDate upd failing stage p hp
    unfold get_pairs_by_stage at hp
    by_cases hv : validStage stage = true
    · rw [if_pos hv] at hp
      have hp' := (List.mergeSort_perm _ pairLeByStage).mem_iff.mp hp
      obtain ⟨q, hq, rfl⟩ := List.mem_map.mp hp'
      have := buildPairs_invariant validDate upd (mkPairByStage validDate stage)
        ((joinedRows db (byStageSqlFilter stage)).filter
          (fun row => !(row.1.stage == some "LEAGUE_STAGE")))
        (fun q => ∃ row ∈ joinedRows db (byStageSqlFilter stage),
          q.team1.id = row.1.home_team_id ∧
          q.team1.name = some row.2.1.name ∧
          q.team1.crest = row.2.1.crest ∧
          q.team2.id = row.1.away_team_id ∧
          q.team2.name = some row.2.2.name ∧
          q.team2.crest = row.2.2.crest)
        ?_ ?_ q hq
      · obtain ⟨row, hrow, h1, h2, h3, h4, h5, h6⟩ := this
        refine ⟨row, hrow, ?_⟩
        unfold attachWinProb
        by_cases hf : failing q.team1.id q.team2.id = true
        · rw [if_pos hf]
          exact ⟨h1, h2, h3, h4, h5, h6⟩
        · rw [if_neg hf]
          exact ⟨h1, h2, h3, h4, h5, h6⟩
      · intro row hrow
        exact ⟨row, List.mem_of_mem_filter hrow,
          rfl, rfl, rfl, rfl, rfl, rfl⟩
      · intro m q hq
        obtain ⟨row, hrow, h1, h2, h3, h4, h5, h6⟩ := hq
        exact ⟨row, hrow, h1, h2, h3, h4, h5, h6⟩
    · rw [if_neg hv] at hp
      exact absurd hp (List.not_mem_nil p)

/-! ## Claim C6: win probabilities on the pair-listing paths -/

theorem by_stage_pairs_carry_win_prob (db : DB) (validDate : String → Bool)
    (upd : MatchRow → PairEntry → Bool) (failing : ℤ → ℤ → Bool)
    (stage : String) (p : PairEntry)
    (hp : p ∈ get_pairs_by_stage db validDate upd failing stage) :
    ∃ w, p.winProbability = some w ∧
      (failing p.team1.id p.team2.id = true → w = errorDefault) ∧
      (failing p.team1.id p.team2.id = false →
        w = pairWinProbPure db p.team1.id p.team2.id) := by
  unfold get_pairs_by_stage at hp
  by_cases hv : validStage stage = true
  · rw [if_pos hv] at hp
    have hp' := (List.mergeSort_perm _ pairLeByStage).mem_iff.mp hp
    obtain ⟨q, _, rfl⟩ := List.mem_map.mp hp'
    unfold attachWinProb
    by_cases hf : failing q.team1.id q.team2.id = true
    · rw [if_pos hf]
      exact ⟨errorDefault, rfl, fun _ => rfl, fun hc => by rw [hf] at hc; cases hc⟩
    · rw [if_neg hf]
      refine ⟨pairWinProbPure db q.team1.id q.team2.id, rfl,
        fun hc => absurd hc hf, fun _ => rfl⟩
  · rw [if_neg hv] at hp
    exact absurd hp (List.not_mem_nil p)

theorem all_pairs_carry_no_win_prob (db : DB) (validDate : String → Bool)
    (upd : MatchRow → PairEntry → Bool) (p : PairEntry)
    (hp : p ∈ get_playoff_pairs db validDate upd) :
    p.winProbability = none := by
  unfold get_playoff_pairs at hp
  have hp' := (List.mergeSort_perm _ pairLeAll).mem_iff.mp hp
  exact buildPairs_invariant validDate upd (mkPairAllPairs validDate) _
    (fun q => q.winProbability = none)
    (fun row _ => rfl) (fun m q hq => hq) p hp'

/-- Amended claim C6: only get_pairs_by_stage attaches a winProbability
to every returned pair (error default when the computation fails, never
failing at the list level); get_playoff_pairs without a stage filter
returns its pairs with no winProbability at all. -/
theorem pair_listing_win_probability :
    (∀ (db : DB) (validDate : String → Bool) (upd : MatchRow → PairEntry → Bool)
      (failing : ℤ → ℤ → Bool) (stage : String) (p : PairEntry),
      p ∈ get_pairs_by_stage db validDate upd failing stage →
      ∃ w, p.winProbability = some w ∧
        (failing p.team1.id p.team2.id = true → w = errorDefault) ∧
        (failing p.team1.id p.team2.id = false →
          w = pairWinProbPure db p.team1.id p.team2.id)) ∧
    (∀ (db : DB) (validDate : String → Bool) (upd : MatchRow → PairEntry → Bool)
      (p : PairEntry), p ∈ get_playoff_pairs db validDate upd →
      p.winProbability = none) :=
  ⟨fun db validDate upd failing stage p hp =>
      by_stage_pairs_carry_win_prob db validDate upd failing stage p hp,
   fun db validDate upd p hp =>
      all_pairs_carry_no_win_prob db validDate upd p hp⟩

/-! ## Claim C4: win probabilities always sum to one with zero draw -/

theorem calculate_win_probability_sums (h1 h2 m1 m2 : ℚ) :
    (calculate_win_probability h1 h2 m1 m2).team1Win
        + (calculate_win_probability h1 h2 m1 m2).team2Win = 1
    ∧ (calculate_win_probability h1 h2 m1 m2).draw = 0 := by
  unfold calculate_win_probability
  by_cases h : m1 * (1/2) + h1 * (1/2) + (m2 * (1/2) + h2 * (1/2)) = 0
  · simp only [if_pos h]
    refine ⟨?_, by trivial⟩
    rw [round3_half]
    norm_num
  · simp only [if_neg h]
    refine ⟨?_, by trivial⟩
    have hc : (m2 * (1/2) + h2 * (1/2))
        / (m1 * (1/2) + h1 * (1/2) + (m2 * (1/2) + h2 * (1/2)))
        = 1 - (m1 * (1/2) + h1 * (1/2))
          / (m1 * (1/2) + h1 * (1/2) + (m2 * (1/2) + h2 * (1/2))) := by
      rw [eq_sub_iff_add_eq, div_add_div_same,
        show m2 * (1/2) + h2 * (1/2) + (m1 * (1/2) + h1 * (1/2))
          = m1 * (1/2) + h1 * (1/2) + (m2 * (1/2) + h2 * (1/2)) from by ring]
      exact div_self h
    rw [hc]
    exact round3_compl _

theorem default_win_probs_sum :
    (pointsPerGameDefault.team1Win + pointsPerGameDefault.team2Win = 1
      ∧ pointsPerGameDefault.draw = 0)
    ∧ (noCommonOpponentsDefault.team1Win + noCommonOpponentsDefault.team2Win = 1
      ∧ noCommonOpponentsDefault.draw = 0)
    ∧ (errorDefault.team1Win + errorDefault.team2Win = 1
      ∧ errorDefault.draw = 0) := by
  refine ⟨⟨?_, rfl⟩, ⟨?_, rfl⟩, ⟨?_, rfl⟩⟩ <;> norm_num [pointsPerGameDefault,
    noCommonOpponentsDefault, errorDefault]

theorem pairWinProbPure_sums (db : DB) (t1 t2 : ℤ) :
    (pairWinProbPure db t1 t2).team1Win + (pairWinProbPure db t1 t2).team2Win = 1
    ∧ (pairWinProbPure db t1 t2).draw = 0 := by
  unfold pairWinProbPure
  by_cases hc : common_opponents_list db t1 t2 ≠ []
  · rw [if_pos hc]
    unfold calculate_league_table
    rw [if_neg hc]
    simp only [Option.getD_some]
    exact calculate_win_probability_sums _ _ _ _
  · rw [if_neg hc]
    exact ⟨by norm_num [noCommonOpponentsDefault], rfl⟩

/-- Claim C4: every winProbability the engine produces, on the
league-table path (where the empty-common-opponents case produces none at
all), on the get_pairs_by_stage listing path, and in every fallback
default, satisfies team1Win plus team2Win equal to 1 with draw equal to
0 exactly (hence within any tolerance). -/
theorem win_probabilities_sum_to_one :
    (∀ (db : DB) (t1 t2 : ℤ) (common : List ℤ) (w : WinProb),
      (calculate_league_table db t1 t2 common).winProbability = some w →
      w.team1Win + w.team2Win = 1 ∧ w.draw = 0) ∧
    (∀ (db : DB) (validDate : String → Bool) (upd : MatchRow → PairEntry → Bool)
      (failing : ℤ → ℤ → Bool) (stage : String) (p : PairEntry) (w : WinProb),
      p ∈ get_pairs_by_stage db validDate upd failing stage →
      p.winProbability = some w →
      w.team1Win + w.team2Win = 1 ∧ w.draw = 0) ∧
    ((pointsPerGameDefault.team1Win + pointsPerGameDefault.team2Win = 1
        ∧ pointsPerGameDefault.draw = 0)
      ∧ (noCommonOpponentsDefault.team1Win + noCommonOpponentsDefault.team2Win = 1
        ∧ noCommonOpponentsDefault.draw = 0)
      ∧ (errorDefault.team1Win + errorDefault.team2Win = 1
        ∧ errorDefault.draw = 0)) := by
  refine ⟨?_, ?_, default_win_probs_sum⟩
  · intro db t1 t2 common w hw
    unfold calculate_league_table at hw
    by_cases hc : common = []
    · rw [if_pos hc] at hw
      cases hw
    · rw [if_neg hc] at hw
      simp only [Option.some.injEq] at hw
      rw [← hw]
      exact calculate_win_probability_sums _ _ _ _
  · intro db validDate upd failing stage p w hp hw
    obtain ⟨w', hw', hfail, hok⟩ :=
      by_stage_pairs_carry_win_prob db validDate upd failing stage p hp
    rw [hw'] at hw
    injection hw with hww
    rw [← hww]
    by_cases hf : failing p.team1.id p.team2.id = true
    · rw [hfail hf]
      exact ⟨by norm_num [errorDefault], rfl⟩
    · rw [hok (Bool.eq_false_iff.mpr hf)]
      exact pairWinProbPure_sums db p.team1.id p.team2.id

/-! ## Claim C5: classification precedence and exclusions -/

/-- Spec-side reading of the precedence chain on the pair-listing path:
first matching rule wins, round text before stage text before the
matchday fallback. -/
def specPairsPrecedence (m : MatchRow) : Option String :=
  ((optTruthy m.round).bind roundStagePairs).orElse (fun _ =>
    ((optTruthy m.stage).bind stageStagePairs).orElse (fun _ =>
      m.matchday.map matchdayStagePairs))

/-- Amended claim C5: on the pair-listing path per-match classification
stops at the first matching rule (round text, then stage text, then
matchday fallback) and a LEAGUE_STAGE tag excludes the match; on the
current-stage path a LEAGUE_STAGE tag or a non-empty group name excludes
the match, but the three rules are all evaluated, each contributing its
stage (in particular the matchday fallback fires even when the round text
already matched); a non-empty group name disables only the matchday
fallback disjunct of the pair-listing filter, not the round/stage text
rules. -/
theorem knockout_classification_precedence :
    (∀ m : MatchRow, pairMatchStage m = specPairsPrecedence m) ∧
    (∀ (m : MatchRow) (s : String),
      (optTruthy m.round).bind roundStageCur = some s →
      s ∈ curStagesOfMatch m) ∧
    (∀ (m : MatchRow) (s : String),
      m.matchday.bind matchdayStageCur = some s → s ∈ curStagesOfMatch m) ∧
    (∀ m : MatchRow,
      (m.stage = some "LEAGUE_STAGE" ∨ ∃ g, m.group_name = some g ∧ g ≠ "") →
      curSkip m = true) ∧
    (∀ m : MatchRow, m.stage = some "LEAGUE_STAGE" → pairsSqlFilter m = false) ∧
    (∀ (m : MatchRow) (g : String), m.group_name = some g → g ≠ "" →
      sqlMatchday7 m = false) := by
  refine ⟨?_, ?_, ?_, ?_, ?_, ?_⟩
  · intro m
    cases hr : (optTruthy m.round).bind roundStagePairs with
    | some s => simp [pairMatchStage, specPairsPrecedence, hr, Option.orElse]
    | none =>
      cases hs : (optTruthy m.stage).bind stageStagePairs with
      | some s => simp [pairMatchStage, specPairsPrecedence, hr, hs, Option.orElse]
      | none => simp [pairMatchStage, specPairsPrecedence, hr, hs, Option.orElse]
  · intro m s h
    unfold curStagesOfMatch
    rw [h]
    simp
  · intro m s h
    unfold curStagesOfMatch
    rw [h]
    simp
  · intro m h
    rcases h with h | ⟨g, hg, hne⟩
    · simp [curSkip, h]
    · simp [curSkip, hg, hne]
  · intro m h
    simp [pairsSqlFilter, sqlStageNotLeague, h]
  · intro m g hg hne
    unfold sqlMatchday7 groupEmptySql
    rw [hg]
    cases m.matchday with
    | none => rfl
    | some md => simp [hne]

/-! ## Claim C3: null-score FINISHED matches -/

theorem statStep_skips_null (db : DB) (t : ℤ) (s : BaseStats) (m : MatchRow)
    (h : (m.home_score.isSome && m.away_score.isSome) = false) :
    statStep db t s m = s := by
  unfold statStep
  cases hh : m.home_score with
  | none => rfl
  | some hs =>
    cases ha : m.away_score with
    | none => rfl
    | some aw =>
      rw [hh, ha] at h
      simp at h

/-- The mini-league statistics are unchanged when null-score matches are
dropped from the match list (the accumulation loop skips them). -/
theorem baseStats_ignores_null_scores (db : DB) (t : ℤ) (ms : List MatchRow) :
    baseStats db ms t
      = baseStats db
          (ms.filter (fun x => x.home_score.isSome && x.away_score.isSome)) t := by
  unfold baseStats
  suffices h : ∀ (init : BaseStats),
      ms.foldl (statStep db t) init
        = (ms.filter (fun x => x.home_score.isSome && x.away_score.isSome)).foldl
            (statStep db t) init from h emptyBase
  induction ms with
  | nil => intro init; rfl
  | cons m ms ih =>
    intro init
    by_cases hp : (m.home_score.isSome && m.away_score.isSome) = true
    · have hfc : (m :: ms).filter (fun x => x.home_score.isSome && x.away_score.isSome)
          = m :: ms.filter (fun x => x.home_score.isSome && x.away_score.isSome) := by
        simp [List.filter_cons, hp]
      rw [List.foldl_cons, hfc, List.foldl_cons]
      exact ih _
    · have hfc : (m :: ms).filter (fun x => x.home_score.isSome && x.away_score.isSome)
          = ms.filter (fun x => x.home_score.isSome && x.away_score.isSome) := by
        simp [List.filter_cons, Bool.eq_false_iff.mpr hp]
      rw [List.foldl_cons, hfc,
        statStep_skips_null db t init m (by simpa using hp)]
      exact ih _

/-- A FINISHED match feeds the Solkoff opponent set and the
common-opponents candidate rows regardless of its scores — the status
alone is filtered. -/
theorem finished_match_feeds_opponent_sets (db : DB) (m : MatchRow)
    (hm : m ∈ db.matchRows) (hst : m.status = some "FINISHED") :
    m.away_team_id ∈ get_opponents db m.home_team_id
    ∧ m.away_team_id ∈ opponentRowsOf db m.home_team_id := by
  constructor
  · unfold get_opponents
    apply Finset.mem_union_left
    rw [List.mem_toFinset]
    apply List.mem_map_of_mem
    rw [List.mem_filter]
    exact ⟨hm, by simp [hst]⟩
  · unfold opponentRowsOf
    have hmem : m ∈ db.matchRows.filter
        (fun x => (x.home_team_id == m.home_team_id
          || x.away_team_id == m.home_team_id) && x.status == some "FINISHED") := by
      rw [List.mem_filter]
      exact ⟨hm, by simp [hst]⟩
    have := List.mem_map_of_mem
      (fun x : MatchRow => if x.home_team_id = m.home_team_id
        then x.away_team_id else x.home_team_id) hmem
    simpa using this

/-- Amended claim C3: null-score FINISHED matches are skipped by every
score-based accumulation (the mini-league statistics are those of the
matches with both scores present), but they still contribute their
opponents to the Solkoff opponent set and to the common-opponents
candidate rows, which filter on status only. -/
theorem null_score_finished_matches :
    (∀ (db : DB) (t : ℤ) (ms : List MatchRow),
      baseStats db ms t
        = baseStats db
            (ms.filter (fun x => x.home_score.isSome && x.away_score.isSome)) t) ∧
    (∀ (db : DB) (m : MatchRow), m ∈ db.matchRows →
      m.status = some "FINISHED" →
      m.away_team_id ∈ get_opponents db m.home_team_id
      ∧ m.away_team_id ∈ opponentRowsOf db m.home_team_id) :=
  ⟨baseStats_ignores_null_scores, finished_match_feeds_opponent_sets⟩

/-! ## Claim C8: the date validity filter (_is_valid_date)

Dates are modelled after parsing: an unparseable string is None, a parsed
string is its UTC instant in seconds since the Unix epoch.  The clock
("now" in UTC) is a civil date plus seconds of day. -/

def isLeapYear (y : ℤ) : Bool :=
  (y % 4 == 0 && !(y % 100 == 0)) || y % 400 == 0

def daysInMonth (y m : ℤ) : ℤ :=
  if m = 2 then (if isLeapYear y then 29 else 28)
  else if m = 4 ∨ m = 6 ∨ m = 9 ∨ m = 11 then 30
  else 31

/-- Calendar validity as checked by the datetime constructor (a
ValueError on an impossible date, such as February 29 of a common year,
is caught by _is_valid_date and turns the whole check False). -/
def validCivil (y m d : ℤ) : Bool :=
  1 ≤ m && m ≤ 12 && 1 ≤ d && d ≤ daysInMonth y m

/-- Days since the Unix epoch of a Gregorian civil date (the standard
civil-from-days algorithm). -/
def daysFromCivil (y m d : ℤ) : ℤ :=
  let y' := if m ≤ 2 then y - 1 else y
  let era := Int.fdiv y' 400
  let yoe := y' - era * 400
  let mp := m + (if 2 < m then -3 else 9)
  let doy := Int.fdiv (153 * mp + 2) 5 + d - 1
  let doe := yoe * 365 + Int.fdiv yoe 4 - Int.fdiv yoe 100 + doy
  era * 146097 + doe - 719468

/-- UTC instant (seconds since the epoch) of a civil date plus seconds of
day. -/
def civilToInstant (y m d sod : ℤ) : ℤ := daysFromCivil y m d * 86400 + sod

/-- The clock: the current UTC civil date and time of day. -/
structure Clock where
  year : ℤ
  month : ℤ
  day : ℤ
  secondsOfDay : ℤ
  deriving DecidableEq

def nowInstant (c : Clock) : ℤ :=
  civilToInstant c.year c.month c.day c.secondsOfDay

/-- PlayoffAnalyzer._is_valid_date over a parse result: an unparseable
value is rejected; the upper bound is midnight of the calendar date
(year + 2, same month and day) and an invalid anniversary date raises
ValueError inside the try block (rejecting everything); the lower bound
is now minus 180 days, inclusive on both ends. -/
def is_valid_date (parsed : Option ℤ) (now : Clock) : Bool :=
  match parsed with
  | none => false
  | some t =>
    if validCivil (now.year + 2) now.month now.day then
      if t > civilToInstant (now.year + 2) now.month now.day 0 then false
      else if t < nowInstant now - 180 * 86400 then false
      else true
    else false

/-- The claim's reading of the filter: accepted exactly when parseable
and strictly inside (now - 180 days, now + 2 years), with two years
taken as the calendar anniversary at the same time of day. -/
def specDateAccepted (parsed : Option ℤ) (now : Clock) : Bool :=
  match parsed with
  | none => false
  | some t =>
    decide (nowInstant now - 180 * 86400 < t) &&
      decide (t < civilToInstant (now.year + 2) now.month now.day
        now.secondsOfDay)

/-- Amended claim C8: the filter accepts exactly the parseable dates t
with now - 180 days ≤ t ≤ midnight UTC of (now.year + 2, now.month,
now.day), provided that anniversary date exists in the calendar. -/
theorem date_filter_window (parsed : Option ℤ) (now : Clock) :
    is_valid_date parsed now = true ↔
      ∃ t, parsed = some t
        ∧ validCivil (now.year + 2) now.month now.day = true
        ∧ nowInstant now - 180 * 86400 ≤ t
        ∧ t ≤ civilToInstant (now.year + 2) now.month now.day 0 := by
  cases parsed with
  | none =>
    simp [is_valid_date]
  | some t =>
    constructor
    · intro h
      simp only [is_valid_date] at h
      refine ⟨t, rfl, ?_, ?_, ?_⟩
      · by_cases hv : validCivil (now.year + 2) now.month now.day = true
        · exact hv
        · rw [if_neg hv] at h
          cases h
      · by_cases hv : validCivil (now.year + 2) now.month now.day = true
        · rw [if_pos hv] at h
          by_cases h1 : t > civilToInstant (now.year + 2) now.month now.day 0
          · rw [if_pos h1] at h
            cases h
          · rw [if_neg h1] at h
            by_cases h2 : t < nowInstant now - 180 * 86400
            · rw [if_pos h2] at h
              cases h
            · linarith [not_lt.mp h2]
        · rw [if_neg hv] at h
          cases h
      · by_cases hv : validCivil (now.year + 2) now.month now.day = true
        · rw [if_pos hv] at h
          by_cases h1 : t > civilToInstant (now.year + 2) now.month now.day 0
          · rw [if_pos h1] at h
            cases h
          · exact not_lt.mp h1
        · rw [if_neg hv] at h
          cases h
    · rintro ⟨t', ht', hv, hlo, hhi⟩
      injection ht' with ht'
      subst ht'
      simp only [is_valid_date]
      rw [if_pos hv, if_neg (not_lt.mpr hhi), if_neg (not_lt.mpr hlo)]

/-! ## Concrete databases, counterexamples and witnesses -/

/-- Sample database: teams 1 and 2 share opponent 5; standings and stored
Solkoff coefficients exist for teams 1 and 2. -/
def wdb : DB :=
  ⟨[⟨1, "A", none⟩, ⟨2, "B", none⟩, ⟨5, "C", some "c.png"⟩],
   [⟨11, 1, 5, some 2, some 0, none, none, some "FINISHED", none, none, none⟩,
    ⟨12, 2, 5, some 1, some 1, none, none, some "FINISHED", none, none, none⟩],
   [⟨1, some 4, some 6⟩, ⟨2, some 4, some 2⟩],
   [⟨1, 2⟩, ⟨2, 1⟩], by decide, by decide⟩

/-- Witness for claim C2 at a concrete analysis. -/
theorem league_table_win_probability_formula_witness :
    (([5] : List ℤ) ≠ []) ∧
    (calculate_league_table wdb 1 2 [5]).winProbability =
      some (specCombinedWinProb (specMainStrength wdb 1) (specMainStrength wdb 2)
        (calculate_league_table wdb 1 2 [5]).team1.strengthPerGame
        (calculate_league_table wdb 1 2 [5]).team2.strengthPerGame) :=
  ⟨by decide, league_table_win_probability_formula wdb 1 2 [5] (by decide)⟩

/-- The win probability produced by the sample analysis. -/
def c4witW : WinProb :=
  match (calculate_league_table wdb 1 2 [5]).winProbability with
  | some w => w
  | none => errorDefault

/-- Witness for claim C4 at a concrete league-table probability. -/
theorem win_probabilities_sum_to_one_witness :
    c4witW.team1Win + c4witW.team2Win = 1 ∧ c4witW.draw = 0 :=
  win_probabilities_sum_to_one.1 wdb 1 2 [5] c4witW (by with_unfolding_all rfl)

/-- Database with one knockout match between teams 1 and 2. -/
def db6 : DB :=
  ⟨[⟨1, "A", none⟩, ⟨2, "B", none⟩],
   [⟨100, 1, 2, none, none, some 7, none, some "SCHEDULED",
     some "KNOCKOUT_OUT", none, none⟩],
   [], [], by decide, by decide⟩

/-- Counterexample for claim C6: the no-stage-filter listing returns its
(single) pair with no winProbability at all. -/
theorem pair_listing_counterexample :
    (get_playoff_pairs db6 (fun _ => false) (fun _ _ => false)).map
        PairEntry.winProbability = [none]
    ∧ (get_playoff_pairs db6 (fun _ => false) (fun _ _ => false)).length = 1 := by
  with_unfolding_all decide

/-- The pair produced by get_pairs_by_stage on db6 when the probability
computation raises. -/
def c6pair : PairEntry :=
  ⟨100, ⟨1, some "A", none⟩, ⟨2, some "B", none⟩, some 7,
    some "Knockout Round Play-off", some "SCHEDULED", none,
    some "KNOCKOUT_OUT", none, some errorDefault⟩

/-- Witness for the amended claim C6 at a concrete failing pair. -/
theorem pair_listing_win_probability_witness :
    ∃ w, c6pair.winProbability = some w ∧
      ((fun _ _ => true : ℤ → ℤ → Bool) c6pair.team1.id c6pair.team2.id = true →
        w = errorDefault) ∧
      ((fun _ _ => true : ℤ → ℤ → Bool) c6pair.team1.id c6pair.team2.id = false →
        w = pairWinProbPure db6 c6pair.team1.id c6pair.team2.id) :=
  pair_listing_win_probability.1 db6 (fun _ => false) (fun _ _ => false)
    (fun _ _ => true) "KNOCKOUT_PLAYOFF" c6pair (by with_unfolding_all decide)

/-- The pair produced by get_playoff_pairs on db6, with the stage and
round columns sitting in the team1 identity fields. -/
def c10pair : PairEntry :=
  ⟨100, ⟨1, some "KNOCKOUT_OUT", none⟩, ⟨2, some "A", none⟩, some 7,
    some "Knockout Round Play-off", some "SCHEDULED", none,
    some "KNOCKOUT_OUT", none, none⟩

/-- Witness for claim C10 at the concrete pair of db6. -/
theorem playoff_pairs_identity_columns_witness :
    ∃ row ∈ joinedRows db6 pairsSqlFilter,
      c10pair.team1.id = row.1.home_team_id ∧
      c10pair.team1.name = row.1.stage ∧
      c10pair.team1.crest = row.1.round ∧
      c10pair.team2.id = row.1.away_team_id ∧
      c10pair.team2.name = some row.2.1.name ∧
      c10pair.team2.crest = row.2.1.crest :=
  playoff_pairs_identity_columns.1 db6 (fun _ => false) (fun _ _ => false)
    c10pair (by with_unfolding_all decide)

/-- A match whose round text and matchday fallback both classify it. -/
def c5m0 : MatchRow :=
  ⟨1, 1, 2, none, none, some 16, none, some "SCHEDULED", none,
    some "QUARTER_FINAL", none⟩

/-- A group match (non-empty group_name) whose round text marks a
final. -/
def c5m1 : MatchRow :=
  ⟨2, 3, 4, none, none, some 3, none, some "FINISHED", some "GROUP_STAGE",
    some "FINAL", some "Group A"⟩

/-- A league-stage match. -/
def c5league : MatchRow :=
  ⟨3, 1, 2, some 1, some 0, some 3, none, some "FINISHED",
    some "LEAGUE_STAGE", none, some "Group A"⟩

/-- Counterexample for claim C5: on the current-stage path the match c5m0
contributes two stages (round text and matchday fallback both fire, no
early stop), and the group match c5m1 passes the pair-listing filter and
is classified as a final despite its non-empty group_name. -/
theorem knockout_classification_counterexample :
    curSkip c5m0 = false
    ∧ (optTruthy c5m0.round).bind roundStageCur = some "QUARTER_FINAL"
    ∧ curStagesOfMatch c5m0 = ["QUARTER_FINAL", "FINAL"]
    ∧ c5m1.group_name = some "Group A"
    ∧ pairsSqlFilter c5m1 = true
    ∧ pairMatchStage c5m1 = some "Final" := by
  with_unfolding_all decide

/-- Witness for the amended claim C5 at concrete matches. -/
theorem knockout_classification_precedence_witness :
    curSkip c5league = true ∧ pairsSqlFilter c5league = false
    ∧ sqlMatchday7 c5m1 = false :=
  ⟨knockout_classification_precedence.2.2.2.1 c5league (Or.inl rfl),
   knockout_classification_precedence.2.2.2.2.1 c5league rfl,
   knockout_classification_precedence.2.2.2.2.2 c5m1 "Group A" rfl (by decide)⟩

/-- A FINISHED match with a null away score. -/
def db3m : MatchRow :=
  ⟨1, 1, 2, some 1, none, none, none, some "FINISHED", none, none, none⟩

/-- Database whose only match is FINISHED with a null score; team 2 has a
standings row with 4 points from 2 games. -/
def db3 : DB := ⟨[], [db3m], [⟨2, some 2, some 4⟩], [], by decide, by decide⟩

/-- Counterexample for claim C3: a FINISHED match with a null score feeds
the Solkoff opponent set, so the coefficient of team 1 is 2 instead of
the 0 the claim requires. -/
theorem null_scores_counterexample :
    db3m.status = some "FINISHED" ∧ db3m.away_score = none
    ∧ db3.matchRows = [db3m]
    ∧ get_opponents db3 1 = {2}
    ∧ calculate_solkoff db3 1 = 2 :=
  ⟨rfl, rfl, rfl, by with_unfolding_all decide, by with_unfolding_all rfl⟩

/-- Witness for the amended claim C3 at the concrete database db3. -/
theorem null_score_finished_matches_witness :
    db3m.away_team_id ∈ get_opponents db3 db3m.home_team_id
    ∧ db3m.away_team_id ∈ opponentRowsOf db3 db3m.home_team_id :=
  null_score_finished_matches.2 db3 db3m (by decide) rfl

/-- The clock 2026-10-12 00:00:00 UTC. -/
def c8now : Clock := ⟨2026, 10, 12, 0⟩

/-- The clock 2026-10-12 13:53:20 UTC. -/
def c8now2 : Clock := ⟨2026, 10, 12, 50000⟩

/-- Counterexample for claim C8: the filter accepts the instant exactly
180 days in the past (outside the claim's open window), and rejects an
instant on the morning of the two-year anniversary that the claim's
window (now + 2 years) still contains. -/
theorem date_filter_counterexample :
    is_valid_date (some (nowInstant c8now - 180 * 86400)) c8now = true
    ∧ specDateAccepted (some (nowInstant c8now - 180 * 86400)) c8now = false
    ∧ is_valid_date (some (civilToInstant 2028 10 12 40000)) c8now2 = false
    ∧ specDateAccepted (some (civilToInstant 2028 10 12 40000)) c8now2 = true := by
  with_unfolding_all decide

/-- Witness for the amended claim C8 at a concrete accepted date. -/
theorem date_filter_window_witness :
    is_valid_date (some (nowInstant c8now)) c8now = true :=
  (date_filter_window (some (nowInstant c8now)) c8now).mpr
    ⟨nowInstant c8now, rfl, by decide, by decide, by decide⟩

end UclSolkoff
